import Mathlib

/-!
Verification of the RAG retrieval-index subsystem of the repository
(`rag_index.py` and `show_kb.py`), as a shallow embedding in Lean 4.

Modelling conventions:
* Python `float` seconds/scores are modelled as `ℚ` (the claims under study
  depend only on field arithmetic and order, not on IEEE-754 rounding).
* Fallible Python code is modelled with `Except PyErr`; a raised exception is
  an `Except.error`.
* Python strings are Lean `String`s (both are sequences of unicode scalars).
* `np.linalg.norm` (an external numpy routine involving a real square root)
  is passed in as an explicit function parameter `nrm : List ℚ → ℚ` of the
  embedding, exactly like the injected embedding provider `embed_fn`; none of
  the verified properties depend on its values.
* File contents are passed to the parsers as strings (the `open`/`read` IO is
  outside the model); the directory walk's parse result is passed to
  `loadDirectory` as the segment list it produces in the source.
-/

set_option allowUnsafeReducibility true

attribute [local semireducible] Rat.add Rat.mul Rat.inv Rat.sub

/-- Python exception kinds relevant to the modelled code paths. -/
inductive PyErr : Type
  | valueError
  | indexError
  | readError
  deriving DecidableEq, Repr

instance {ε α : Type} [DecidableEq ε] [DecidableEq α] : DecidableEq (Except ε α) := fun a b =>
  match a, b with
  | .error e1, .error e2 =>
    if h : e1 = e2 then .isTrue (by rw [h]) else .isFalse (by simp [h])
  | .error _, .ok _ => .isFalse (by simp)
  | .ok _, .error _ => .isFalse (by simp)
  | .ok a1, .ok a2 =>
    if h : a1 = a2 then .isTrue (by rw [h]) else .isFalse (by simp [h])

/-! ## Python string primitives -/

/-- Whitespace characters stripped by Python `str.strip()` and matched by
regex `\s` (ASCII range, which is all the repository's data uses). -/
def isPySpace (c : Char) : Bool :=
  c = ' ' || c = '\t' || c = '\n' || c = '\x0d' || c = '\x0b' || c = '\x0c'

/-- Python `str.strip()`. -/
def pyStrip (s : String) : String :=
  String.mk ((((s.toList.dropWhile isPySpace).reverse).dropWhile isPySpace).reverse)

/-- Worker for `pySplit`: scan left to right, cutting at each non-overlapping
occurrence of `sep` (the fuel argument is the input length, enough for every
step). -/
def splitGo (sep : List Char) : Nat → List Char → List Char → List (List Char)
  | _, acc, [] => [acc.reverse]
  | 0, acc, _ :: _ => [acc.reverse]
  | fuel + 1, acc, c :: cs =>
    if sep.isPrefixOf (c :: cs)
    then acc.reverse :: splitGo sep fuel [] (List.drop sep.length (c :: cs))
    else splitGo sep fuel (c :: acc) cs

/-- Python `s.split(sep)` for a non-empty separator (also the behaviour of
`String.splitOn`): cut at each non-overlapping occurrence, keeping empty
pieces. -/
def pySplit (s sep : String) : List String :=
  (splitGo sep.toList s.toList.length [] s.toList).map String.mk

/-- Worker for `pyReplace`. -/
def replGo (pat rep : List Char) : Nat → List Char → List Char
  | _, [] => []
  | 0, cs => cs
  | fuel + 1, c :: cs =>
    if pat.isPrefixOf (c :: cs)
    then rep ++ replGo pat rep fuel (List.drop pat.length (c :: cs))
    else c :: replGo pat rep fuel cs

/-- Python `s.replace(pat, rep)` for a non-empty pattern: replace every
non-overlapping occurrence, left to right. -/
def pyReplace (s pat rep : String) : String :=
  String.mk (replGo pat.toList rep.toList s.toList.length s.toList)

/-- Python `sep.join(parts)`. -/
def pyJoin (sep : String) (parts : List String) : String :=
  String.mk (List.flatten (List.intersperse sep.toList (parts.map String.toList)))

/-- Python `sub in s` substring test (for a non-empty `sub`). -/
def strContains (s sub : String) : Bool :=
  (pySplit s sub).length ≥ 2

/-- Numeric value of a digit string (Python `int` on an `isdigit` string). -/
def digitsToNat (cs : List Char) : Nat :=
  cs.foldl (fun a c => a * 10 + (c.toNat - '0'.toNat)) 0

/-- Collapse every maximal run of whitespace to a single space
(the effect of `re.sub(r"\s+", " ", s)`). -/
def squeezeWs : List Char → List Char
  | [] => []
  | [c] => [if isPySpace c then ' ' else c]
  | c :: c2 :: cs =>
    if isPySpace c && isPySpace c2 then squeezeWs (c2 :: cs)
    else (if isPySpace c then ' ' else c) :: squeezeWs (c2 :: cs)

/-- The source's `_normalize_text`: strip, then collapse whitespace runs. -/
def normalizeText (s : String) : String :=
  String.mk (squeezeWs (pyStrip s).toList)

/-- Python `str.isdigit()` (ASCII digits, which is all the parsers feed it). -/
def isDigitStr (s : String) : Bool :=
  !s.toList.isEmpty && s.toList.all Char.isDigit

/-- Python `f"{idx:06d}"`: decimal, zero-padded to at least six digits. -/
def pad6 (n : Nat) : String :=
  let s := toString n
  if s.length < 6 then String.mk (List.replicate (6 - s.length) '0') ++ s else s

/-- Digit value of an ASCII digit character. -/
def digitVal (c : Char) : Nat := c.toNat - '0'.toNat

/-- The source's `_tc_to_seconds`: match `(\d{2}):(\d{2}):(\d{2}),(\d{3})` at
the start of the stripped string (trailing characters are ignored, as with
`re.match`), and convert to seconds; `none` models the raised `ValueError`. -/
def tcToSeconds (tc : String) : Option ℚ :=
  match (pyStrip tc).toList with
  | c0 :: c1 :: ':' :: c2 :: c3 :: ':' :: c4 :: c5 :: ',' :: c6 :: c7 :: c8 :: _ =>
    if (c0.isDigit && c1.isDigit && c2.isDigit && c3.isDigit &&
        c4.isDigit && c5.isDigit && c6.isDigit && c7.isDigit && c8.isDigit) then
      let hh := digitVal c0 * 10 + digitVal c1
      let mm := digitVal c2 * 10 + digitVal c3
      let ss := digitVal c4 * 10 + digitVal c5
      let ms := digitVal c6 * 100 + digitVal c7 * 10 + digitVal c8
      some ((hh * 3600 + mm * 60 + ss : ℚ) + (ms : ℚ) / 1000)
    else none
  | _ => none

/-! ## Segment data model -/

/-- The `metadata` dict attached to a `RAGSeg` (string `"type"` key plus the
timing keys present on subtitle segments; `Option` models absent keys). -/
structure SegMeta where
  mtype : String
  start_tc : String
  end_tc : String
  start_s : Option ℚ
  end_s : Option ℚ
  deriving DecidableEq, Repr

/-- The source's `RAGSeg` dataclass. -/
structure RAGSeg where
  seg_id : String
  file_path : String
  text : String
  raw : String
  metadata : SegMeta
  deriving DecidableEq, Repr

/-- The source's `ShowSeg` dataclass (`show_kb.py`). -/
structure ShowSeg where
  seg_id : String
  episode : String
  part : String
  idx : Nat
  start_tc : String
  end_tc : String
  start_s : ℚ
  end_s : ℚ
  text : String
  raw : String
  deriving DecidableEq, Repr

/-! ## SRT block parsing (shared shape of `RAGIndex._parse_srt` and
`ShowIndex._parse_srt`) -/

/-- Normalize line endings and split the file into stripped non-empty
blank-line-delimited blocks. -/
def splitBlocks (content : String) : List String :=
  (pySplit (pyReplace (pyReplace content "\r\n" "\n") "\r" "\n") "\n\n").filterMap
    (fun b => let t := pyStrip b; if t = "" then none else some t)

/-- Stripped, non-empty lines of one block. -/
def blockLines (b : String) : List String :=
  (pySplit b "\n").filterMap
    (fun ln => let t := pyStrip ln; if t = "" then none else some t)

/-- Classify a block: `none` means the block is malformed (too few lines, or
no time-range line in the expected position) and is silently skipped; `some`
returns the time line, the text lines, and the explicit numeric index when the
first line is all digits. -/
def blockShape (b : String) : Option (String × List String × Option Nat) :=
  let lines := blockLines b
  if lines.length < 2 then none
  else
    match lines with
    | [] => none
    | l0 :: rest =>
      if strContains l0 "-->" then some (l0, rest, none)
      else
        match rest with
        | [] => none
        | l1 :: rest2 =>
          if lines.length < 3 || !strContains l1 "-->" then none
          else some (l1, rest2, if isDigitStr l0 then some (digitsToNat l0.toList) else none)

/-- The body of the per-block work both parsers do after classification, in
source evaluation order: split the time line on `-->` (raising unless exactly
two parts), join and strip the text lines (skipping the block when empty),
then parse both timecodes (raising on failure).  `Except.error` models the
raised exception; `Except.ok none` models `continue`. -/
def blockBody (time_line : String) (text_lines : List String) :
    Except PyErr (Option (String × String × ℚ × ℚ × String × String)) :=
  match (pySplit time_line "-->").map pyStrip with
  | [st, en] =>
    let raw := pyStrip (pyJoin " " text_lines)
    if raw = "" then .ok none
    else
      match tcToSeconds st with
      | none => .error .valueError
      | some s =>
        match tcToSeconds en with
        | none => .error .valueError
        | some e => .ok (some (st, en, s, e, raw, normalizeText raw))
  | _ => .error .valueError

/-- A block whose time-range line is present but whose processing raises
(garbled timecodes, or a time line that does not split into exactly two
parts). -/
def blockFatal (b : String) : Bool :=
  match blockShape b with
  | none => false
  | some (tl, txts, _) =>
    match blockBody tl txts with
    | .error _ => true
    | .ok _ => false

/-- A block that yields a segment. -/
def blockGood (b : String) : Bool :=
  match blockShape b with
  | none => false
  | some (tl, txts, _) =>
    match blockBody tl txts with
    | .ok (some _) => true
    | _ => false

/-- A malformed block in the claim's sense: too few lines or no `-->` line. -/
def blockMalformed (b : String) : Bool :=
  (blockShape b).isNone

/-- One step of `RAGIndex._parse_srt`'s block loop: exceptions from the block
body are caught (`except Exception: continue`) and the block is skipped. -/
def ragSrtStep (path pfx : String) (out : List RAGSeg) (b : String) : List RAGSeg :=
  match blockShape b with
  | none => out
  | some (tl, txts, oidx) =>
    let idx := oidx.getD (out.length + 1)
    match blockBody tl txts with
    | .error _ => out
    | .ok none => out
    | .ok (some (st, en, s, e, raw, txt)) =>
      out ++ [{ seg_id := pfx ++ "-" ++ pad6 idx
                file_path := path
                text := txt
                raw := raw
                metadata := { mtype := "srt", start_tc := st, end_tc := en,
                              start_s := some s, end_s := some e } }]

/-- The source's `RAGIndex._parse_srt` applied to the contents of `path`.
Total: every per-block exception is caught and the block skipped. -/
def parseSrtRag (path content pfx : String) : List RAGSeg :=
  (splitBlocks content).foldl (ragSrtStep path pfx) []

/-- The block loop of `ShowIndex._parse_srt`: no try/except, so the first
exception aborts the whole file parse. -/
def showSrtGo (path episode part pfx : String) :
    List String → List ShowSeg → Except PyErr (List ShowSeg)
  | [], out => .ok out
  | b :: bs, out =>
    match blockShape b with
    | none => showSrtGo path episode part pfx bs out
    | some (tl, txts, oidx) =>
      let idx := oidx.getD (out.length + 1)
      match blockBody tl txts with
      | .error e => .error e
      | .ok none => showSrtGo path episode part pfx bs out
      | .ok (some (st, en, s, e, raw, txt)) =>
        showSrtGo path episode part pfx bs
          (out ++ [{ seg_id := pfx ++ "-" ++ episode ++ part ++ "-" ++ pad6 idx
                     episode := episode
                     part := part
                     idx := idx
                     start_tc := st
                     end_tc := en
                     start_s := s
                     end_s := e
                     text := txt
                     raw := raw }])

/-- The source's `ShowIndex._parse_srt` applied to the contents of `path`;
a bad timecode in a present time-range line raises to the caller. -/
def parseSrtShow (path content episode part pfx : String) : Except PyErr (List ShowSeg) :=
  showSrtGo path episode part pfx (splitBlocks content) []

/-! ## Descending stable sort (Python `list.sort(key=lambda x: -x[0])`) -/

/-- Descending-by-score ordering on `(score, payload)` pairs. -/
def scoreRel {α : Type} (a b : ℚ × α) : Prop := b.1 ≤ a.1

instance {α : Type} : DecidableRel (@scoreRel α) :=
  fun a b => inferInstanceAs (Decidable (b.1 ≤ a.1))

instance {α : Type} : IsTotal (ℚ × α) scoreRel :=
  ⟨fun a b => le_total b.1 a.1⟩

instance {α : Type} : IsTrans (ℚ × α) scoreRel :=
  ⟨fun _ _ _ h1 h2 => le_trans h2 h1⟩

/-- Stable descending sort by score, as Python's stable `sort` with key
`-score` behaves. -/
def sortHitsDesc {α : Type} (l : List (ℚ × α)) : List (ℚ × α) :=
  List.insertionSort scoreRel l

/-! ## Timestamp-window search over transcript segments
(`RAGIndex.search_transcript_by_timestamp`) -/

/-- Effective segment end: `float(end_s) if end_s is not None else start + 5.0`. -/
def effectiveEnd (s : ℚ) (e? : Option ℚ) : ℚ := e?.getD (s + 5)

/-- Per-segment branch of `search_transcript_by_timestamp`: `none` when the
segment is not subtitle-kind, has no start time, or lies beyond the
tolerance; otherwise the score the source assigns. -/
def transcriptScore (ts tol : ℚ) (seg : RAGSeg) : Option ℚ :=
  if seg.metadata.mtype = "srt" then
    match seg.metadata.start_s with
    | none => none
    | some s =>
      if s ≤ ts ∧ ts ≤ effectiveEnd s seg.metadata.end_s then some 2
      else if ts < s then
        (if s - ts ≤ tol then some (1 / (1 + (s - ts))) else none)
      else
        (if ts - effectiveEnd s seg.metadata.end_s ≤ tol
         then some (1 / (1 + (ts - effectiveEnd s seg.metadata.end_s))) else none)
  else none

/-- The source's `search_transcript_by_timestamp` over the index's segment
list. -/
def searchTranscriptByTimestamp (segs : List RAGSeg) (ts tol : ℚ) : List (ℚ × RAGSeg) :=
  sortHitsDesc (segs.filterMap
    (fun seg => (transcriptScore ts tol seg).map (fun sc => (sc, seg))))

/-- Whether a segment is subtitle-kind and its interval contains the target
instant (the branch of the source that assigns the fixed score `2.0`). -/
def containsTs (ts : ℚ) (seg : RAGSeg) : Bool :=
  seg.metadata.mtype = "srt" &&
  (match seg.metadata.start_s with
   | none => false
   | some s => decide (s ≤ ts ∧ ts ≤ effectiveEnd s seg.metadata.end_s))

/-! ## Timestamp parsing and frame search
(`RAGIndex.search_frames_by_timestamp`) -/

/-- Python `s.replace(".", ",", 1)`. -/
def replaceFirstDot : List Char → List Char
  | [] => []
  | c :: cs => if c = '.' then ',' :: cs else c :: replaceFirstDot cs

/-- The fallback transformation the source applies before the second parse
attempt: append `,000` when neither separator is present; otherwise convert
the first dot to a comma; otherwise leave the string unchanged. -/
def frameFallback (s : String) : String :=
  if !strContains s "," && !strContains s "." then s ++ ",000"
  else if strContains s "." then String.mk (replaceFirstDot s.toList) else s

/-- The timestamp-parsing preamble of `search_frames_by_timestamp`: try the
strict format, then retry on the fallback-transformed string; `none` models
the caught failure that makes the search return `[]`. -/
def parseFrameTimestamp (s : String) : Option ℚ :=
  match tcToSeconds s with
  | some v => some v
  | none => tcToSeconds (frameFallback s)

/-- Character class `[\d:,\s]` of the frame-caption regex's first group. -/
def isClass1 (c : Char) : Bool := c.isDigit || c = ':' || c = ',' || isPySpace c

/-- Character class `[\d.]` of the frame-caption regex's seconds group. -/
def isClass2 (c : Char) : Bool := c.isDigit || c = '.'

/-- Attempt to match `时间:\s*([\d:,\s]+)\s*\(([\d.]+)秒\)` at the head of the
character list, returning group 2.  Because `\s` is contained in the first
group's class and `(` (resp. `秒`) is outside it, greedy matching with
backtracking is equivalent to taking the maximal class run and then requiring
the next literal, which is what this does. -/
def matchTimeAt (cs : List Char) : Option String :=
  match cs with
  | '时' :: '间' :: ':' :: rest =>
    let run1 := rest.takeWhile isClass1
    if run1.isEmpty then none
    else
      match rest.dropWhile isClass1 with
      | '(' :: rest2 =>
        let g2 := rest2.takeWhile isClass2
        if g2.isEmpty then none
        else
          match rest2.dropWhile isClass2 with
          | '秒' :: ')' :: _ => some (String.mk g2)
          | _ => none
      | _ => none
  | _ => none

/-- The effect of `re.search` with the frame-caption time pattern: try every
start position left to right, returning the seconds group of the first
match. -/
def findTimeG2 : List Char → Option String
  | [] => none
  | c :: cs =>
    match matchTimeAt (c :: cs) with
    | some g => some g
    | none => findTimeG2 cs

/-- Python `float()` applied to a string drawn from `[\d.]+`: at most one dot
and at least one digit. -/
def pyFloat (s : String) : Option ℚ :=
  match pySplit s "." with
  | [i] => if isDigitStr i then some ((digitsToNat i.toList : ℚ)) else none
  | [i, f] =>
    if !(i.toList.all Char.isDigit && f.toList.all Char.isDigit) then none
    else if i ++ f = "" then none
    else some ((digitsToNat i.toList : ℚ) +
               (digitsToNat f.toList : ℚ) / 10 ^ f.toList.length)
  | _ => none

/-- Whether the source's frame scan looks at this segment's raw text at all:
`"captions.zh.txt" in file_path or "frames" in file_path`. -/
def framePathFilter (fp : String) : Bool :=
  strContains fp "captions.zh.txt" || strContains fp "frames"

/-- The timestamp in seconds the frame scan extracts from a segment, if any:
path filter, regex search, then `float` conversion (whose failure is caught
and skips the segment). -/
def frameSeconds (seg : RAGSeg) : Option ℚ :=
  if framePathFilter seg.file_path then
    match findTimeG2 seg.raw.toList with
    | none => none
    | some g2 => pyFloat g2
  else none

/-- The per-segment step of the frame scan: distance to the target, tolerance
check, score `1 / (1 + distance)`. -/
def frameHit (target tol : ℚ) (seg : RAGSeg) : Option (ℚ × RAGSeg) :=
  match frameSeconds seg with
  | none => none
  | some fsec =>
    if |fsec - target| ≤ tol then some (1 / (1 + |fsec - target|), seg) else none

/-- The source's `search_frames_by_timestamp` over the index's segment
list. -/
def searchFramesByTimestamp (segs : List RAGSeg) (timestamp_str : String) (tol : ℚ) :
    List (ℚ × RAGSeg) :=
  match parseFrameTimestamp timestamp_str with
  | none => []
  | some target => sortHitsDesc (segs.filterMap (frameHit target tol))

/-! ## SHA-256 (`hashlib.sha256`) over byte lists, word arithmetic on `Nat`
with explicit reduction mod `2^32` -/

/-- Reduce to a 32-bit word. -/
def w32 (n : Nat) : Nat := n % 4294967296

/-- Right rotation of a 32-bit word. -/
def rotr (k n : Nat) : Nat := w32 ((n >>> k) ||| (n <<< (32 - k)))

/-- SHA-256 `Ch`. -/
def shaCh (x y z : Nat) : Nat := (x &&& y) ^^^ ((x ^^^ 4294967295) &&& z)

/-- SHA-256 `Maj`. -/
def shaMaj (x y z : Nat) : Nat := (x &&& y) ^^^ (x &&& z) ^^^ (y &&& z)

/-- SHA-256 `Σ₀`. -/
def bigSigma0 (x : Nat) : Nat := rotr 2 x ^^^ rotr 13 x ^^^ rotr 22 x

/-- SHA-256 `Σ₁`. -/
def bigSigma1 (x : Nat) : Nat := rotr 6 x ^^^ rotr 11 x ^^^ rotr 25 x

/-- SHA-256 `σ₀`. -/
def smallSigma0 (x : Nat) : Nat := rotr 7 x ^^^ rotr 18 x ^^^ (x >>> 3)

/-- SHA-256 `σ₁`. -/
def smallSigma1 (x : Nat) : Nat := rotr 17 x ^^^ rotr 19 x ^^^ (x >>> 10)

/-- SHA-256 round constants (FIPS 180-4, written in decimal). -/
def shaK : List Nat :=
  [1116352408, 1899447441, 3049323471, 3921009573, 961987163,
   1508970993, 2453635748, 2870763221, 3624381080, 310598401,
   607225278, 1426881987, 1925078388, 2162078206, 2614888103,
   3248222580, 3835390401, 4022224774, 264347078, 604807628,
   770255983, 1249150122, 1555081692, 1996064986, 2554220882,
   2821834349, 2952996808, 3210313671, 3336571891, 3584528711,
   113926993, 338241895, 666307205, 773529912, 1294757372,
   1396182291, 1695183700, 1986661051, 2177026350, 2456956037,
   2730485921, 2820302411, 3259730800, 3345764771, 3516065817,
   3600352804, 4094571909, 275423344, 430227734, 506948616,
   659060556, 883997877, 958139571, 1322822218, 1537002063,
   1747873779, 1955562222, 2024104815, 2227730452, 2361852424,
   2428436474, 2756734187, 3204031479, 3329325298]

/-- Initial SHA-256 hash state (FIPS 180-4, written in decimal). -/
def shaH0 : List Nat :=
  [1779033703, 3144134277, 1013904242, 2773480762,
   1359893119, 2600822924, 528734635, 1541459225]

/-- Big-endian byte decomposition of `n` into `k` bytes. -/
def beBytes (k n : Nat) : List Nat :=
  (List.range k).map (fun i => (n >>> (8 * (k - 1 - i))) % 256)

/-- Big-endian word from a byte list. -/
def beWord (bs : List Nat) : Nat := bs.foldl (fun a b => a * 256 + b) 0

/-- SHA-256 message padding: append `0x80`, zero bytes to 56 mod 64, then the
bit length as eight big-endian bytes. -/
def shaPad (msg : List Nat) : List Nat :=
  msg ++ [128] ++ List.replicate ((120 - (msg.length + 1) % 64) % 64) 0
      ++ beBytes 8 (msg.length * 8)

/-- Fixed-size chunking (`List.take`/`drop` driven by a fuel argument, used
both by SHA-256 block splitting and by the embedding batch loop). -/
def chunksGo {α : Type} (b : Nat) : Nat → List α → List (List α)
  | 0, _ => []
  | _ + 1, [] => []
  | fuel + 1, c :: cs => (c :: cs).take b :: chunksGo b fuel ((c :: cs).drop b)

/-- Split a list into consecutive chunks of size `b` (last one possibly
shorter); returns `[]` for `b = 0`, a case the callers below rule out. -/
def pyChunks {α : Type} (b : Nat) (l : List α) : List (List α) :=
  chunksGo b l.length l

/-- Extend the 16 message-schedule words to 64. -/
def shaSchedule (ws : List Nat) : List Nat :=
  (List.range 48).foldl
    (fun w _ =>
      let n := w.length
      w ++ [w32 (smallSigma1 (w.getD (n - 2) 0) + w.getD (n - 7) 0 +
                 smallSigma0 (w.getD (n - 15) 0) + w.getD (n - 16) 0)])
    ws

/-- One SHA-256 compression round. -/
def shaRound (st : Nat × Nat × Nat × Nat × Nat × Nat × Nat × Nat) (kw : Nat × Nat) :
    Nat × Nat × Nat × Nat × Nat × Nat × Nat × Nat :=
  match st with
  | (a, b, c, d, e, f, g, h) =>
    let t1 := w32 (h + bigSigma1 e + shaCh e f g + kw.1 + kw.2)
    let t2 := w32 (bigSigma0 a + shaMaj a b c)
    (w32 (t1 + t2), a, b, c, w32 (d + t1), e, f, g)

/-- Compress one 64-byte block into the running hash state. -/
def shaCompress (hstate : List Nat) (block : List Nat) : List Nat :=
  let ws := shaSchedule ((pyChunks 4 block).map beWord)
  match hstate with
  | [h0, h1, h2, h3, h4, h5, h6, h7] =>
    match (shaK.zip ws).foldl shaRound (h0, h1, h2, h3, h4, h5, h6, h7) with
    | (a, b, c, d, e, f, g, h) =>
      [w32 (h0 + a), w32 (h1 + b), w32 (h2 + c), w32 (h3 + d),
       w32 (h4 + e), w32 (h5 + f), w32 (h6 + g), w32 (h7 + h)]
  | other => other

/-- Lowercase hex digit. -/
def hexDigit (d : Nat) : Char :=
  if d < 10 then Char.ofNat ('0'.toNat + d) else Char.ofNat ('a'.toNat + d - 10)

/-- Eight-hex-digit rendering of a 32-bit word. -/
def hex8 (n : Nat) : String :=
  String.mk ((List.range 8).map (fun i => hexDigit ((n >>> (4 * (7 - i))) % 16)))

/-- SHA-256 hex digest of a byte list (`hashlib.sha256(...).hexdigest()`). -/
def sha256hex (msg : List Nat) : String :=
  String.join ((((pyChunks 64 (shaPad msg)).foldl shaCompress shaH0)).map hex8)

/-! ## Fingerprints (`RAGIndex._fingerprint`, `ShowIndex._fingerprint`) -/

/-- UTF-8 bytes of a string (`s.encode("utf-8")`). -/
def utf8Bytes (s : String) : List Nat :=
  s.toUTF8.toList.map (fun b => b.toNat)

/-- The byte stream both `_fingerprint` implementations feed to the hash:
for each segment, its id, a newline, its raw text, a newline. -/
def fingerprintStream (pairs : List (String × String)) : List Nat :=
  (pairs.map (fun p => utf8Bytes p.1 ++ [10] ++ utf8Bytes p.2 ++ [10])).flatten

/-- The source's `RAGIndex._fingerprint`. -/
def fingerprint (segs : List RAGSeg) : String :=
  sha256hex (fingerprintStream (segs.map (fun s => (s.seg_id, s.raw))))

/-- The source's `ShowIndex._fingerprint`. -/
def fingerprintShow (segs : List ShowSeg) : String :=
  sha256hex (fingerprintStream (segs.map (fun s => (s.seg_id, s.raw))))

/-! ## Index state, cache artifacts, and `load_directory` -/

/-- Result of reading and deserializing one cache artifact: `err` models any
exception raised during the read (missing content, bad JSON, bad array). -/
inductive ReadRes (α : Type) : Type
  | ok (a : α)
  | err
  deriving DecidableEq

/-- The three on-disk cache artifacts for one index (present only when all
three files exist).  `metaFp` is the result of `json.load` followed by
`.get("fingerprint")` (`none` when the key is absent); `segRecs` the parsed
segment dump; `embMat` the loaded embedding matrix. -/
structure CacheArtsG (α : Type) : Type where
  metaFp : ReadRes (Option String)
  segRecs : ReadRes (List α)
  embMat : ReadRes (List (List ℚ))
  deriving DecidableEq

/-- In-memory index state: `self.segs` and `self._emb`. -/
structure IndexStateG (α : Type) : Type where
  segs : List α
  emb : Option (List (List ℚ))
  deriving DecidableEq

/-- One cache-artifact write performed by the rebuild path, in program
order. -/
inductive WriteEvG (α : Type) : Type
  | metaW (fp : String) (count : Nat)
  | embW (m : List (List ℚ))
  | segW (s : List α)
  deriving DecidableEq

/-- The body of the `try:` block guarding the cache-hit path: read the
metadata; on fingerprint match read the segment dump and the matrix and
return them; a mismatch falls through without raising (`Except.ok none`);
any read exception propagates out of the attempt (to be caught by the
surrounding `except`). -/
def cacheReadAttempt {α : Type} (arts : CacheArtsG α) (fp : String) :
    Except PyErr (Option (List α × List (List ℚ))) :=
  match arts.metaFp with
  | .err => .error .readError
  | .ok mfp =>
    if mfp = some fp then
      match arts.segRecs with
      | .err => .error .readError
      | .ok sg =>
        match arts.embMat with
        | .err => .error .readError
        | .ok em => .ok (some (sg, em))
    else .ok none

/-- Embed one batch after another sequentially, concatenating the returned
vectors; a provider exception propagates. -/
def embedBatches (embedFn : List String → Except PyErr (List (List ℚ))) :
    List (List String) → Except PyErr (List (List ℚ))
  | [] => .ok []
  | b :: bs =>
    match embedFn b with
    | .error e => .error e
    | .ok vs =>
      match embedBatches embedFn bs with
      | .error e => .error e
      | .ok rest => .ok (vs ++ rest)

/-- The embedding loop `for i in range(0, len(texts), batch_size)`: a zero
batch size raises (`range` with step 0), otherwise the texts are embedded in
consecutive batches. -/
def embedAll (embedFn : List String → Except PyErr (List (List ℚ)))
    (batchSize : Nat) (texts : List String) : Except PyErr (List (List ℚ)) :=
  if batchSize = 0 then .error .valueError
  else embedBatches embedFn (pyChunks batchSize texts)

/-- Model of `np.stack(vecs, axis=0)`: raises on an empty or ragged list,
otherwise yields the row list itself. -/
def npStack (vecs : List (List ℚ)) : Except PyErr (List (List ℚ)) :=
  match vecs with
  | [] => .error .valueError
  | v :: vs =>
    if vs.all (fun w => w.length = v.length) then .ok (v :: vs)
    else .error .valueError

/-- Row normalization `emb / (np.linalg.norm(emb, axis=1) + 1e-9)` with the
norm routine `nrm` passed in as an external collaborator. -/
def normalizeRow (nrm : List ℚ → ℚ) (v : List ℚ) : List ℚ :=
  v.map (fun x => x / (nrm v + 1 / 1000000000))

/-- The rebuild path shared by `RAGIndex.load_directory` and
`ShowIndex.build_from_srt`: embed all segment texts in batches, stack,
normalize rows, install the new state, and write the three cache artifacts
in program order (metadata first, then matrix, then segment dump). -/
def rebuildIndex {α : Type} (textF : α → String) (fpF : List α → String)
    (embedFn : List String → Except PyErr (List (List ℚ))) (nrm : List ℚ → ℚ)
    (segs : List α) (batchSize : Nat) :
    Except PyErr (IndexStateG α × List (WriteEvG α)) :=
  match embedAll embedFn batchSize (segs.map textF) with
  | .error e => .error e
  | .ok vecs =>
    match npStack vecs with
    | .error e => .error e
    | .ok m =>
      let emn := m.map (normalizeRow nrm)
      .ok (⟨segs, some emn⟩,
           [.metaW (fpF segs) segs.length, .embW emn, .segW segs])

/-- The source's `RAGIndex.load_directory`, taking the directory walk's parse
result as `segs` and the cache directory's artifact files as `fs` (`none`
when at least one of the three files is missing).  Returns the final index
state and the ordered list of cache writes performed. -/
def loadDirectory (embedFn : List String → Except PyErr (List (List ℚ)))
    (nrm : List ℚ → ℚ) (fs : Option (CacheArtsG RAGSeg)) (segs : List RAGSeg)
    (batchSize : Nat) (forceRebuild : Bool) :
    Except PyErr (IndexStateG RAGSeg × List (WriteEvG RAGSeg)) :=
  if segs.isEmpty then .ok (⟨[], none⟩, [])
  else
    let fp := fingerprint segs
    let hit :=
      if forceRebuild then none
      else
        match fs with
        | none => none
        | some arts =>
          match cacheReadAttempt arts fp with
          | .ok r => r
          | .error _ => none
    match hit with
    | some (sg, em) => .ok (⟨sg, some em⟩, [])
    | none => rebuildIndex (fun s => s.text) fingerprint embedFn nrm segs batchSize

/-- The source's `ShowIndex.build_from_srt`, taking the parsed segments of
its `srt_files` as `segs` (parsing itself is `parseSrtShow`); unlike
`load_directory` there is no empty-segments early return and no
force-rebuild flag. -/
def buildFromSrt (embedFn : List String → Except PyErr (List (List ℚ)))
    (nrm : List ℚ → ℚ) (fs : Option (CacheArtsG ShowSeg)) (segs : List ShowSeg)
    (batchSize : Nat) :
    Except PyErr (IndexStateG ShowSeg × List (WriteEvG ShowSeg)) :=
  let fp := fingerprintShow segs
  let hit :=
    match fs with
    | none => none
    | some arts =>
      match cacheReadAttempt arts fp with
      | .ok r => r
      | .error _ => none
  match hit with
  | some (sg, em) => .ok (⟨sg, some em⟩, [])
  | none => rebuildIndex (fun s => s.text) fingerprintShow embedFn nrm segs batchSize

/-! ## Semantic search (`RAGIndex.search`) -/

/-- Dot product (`emb @ qv` rows). -/
def dotQ (v w : List ℚ) : ℚ := (List.zipWith (fun a b => a * b) v w).sum

/-- Default segment for (never-reached) out-of-range indexing. -/
def dummySeg : RAGSeg :=
  ⟨"", "", "", "", ⟨"", "", "", none, none⟩⟩

/-- Descending comparison of indices by their score (`np.argsort(-scores)`,
determinized to break ties by original position). -/
def idxScoreRel (scores : List ℚ) (i j : Nat) : Prop :=
  scores.getD j 0 ≤ scores.getD i 0

instance (scores : List ℚ) : DecidableRel (idxScoreRel scores) :=
  fun i j => inferInstanceAs (Decidable (scores.getD j 0 ≤ scores.getD i 0))

instance (scores : List ℚ) : IsTotal Nat (idxScoreRel scores) :=
  ⟨fun i j => le_total (scores.getD j 0) (scores.getD i 0)⟩

instance (scores : List ℚ) : IsTrans Nat (idxScoreRel scores) :=
  ⟨fun _ _ _ h1 h2 => le_trans h2 h1⟩

/-- Indices `0..N-1` sorted by descending score. -/
def argsortDesc (scores : List ℚ) : List Nat :=
  List.insertionSort (idxScoreRel scores) (List.range scores.length)

/-- The result-collection loop `for ix in idxs: out.append(...); if len(out)
>= k: break`: note that for `k ≤ 0` one element is still appended before the
length check fires. -/
def takeUntilLen {α : Type} (k : Int) : List α → List α
  | [] => []
  | x :: xs => if (1 : Int) ≥ k then [x] else x :: takeUntilLen (k - 1) xs

/-- The source's `RAGIndex.search` (with the Python `int` argument `k`
modelled as `ℤ`). -/
def search (embedFn : List String → Except PyErr (List (List ℚ)))
    (nrm : List ℚ → ℚ) (st : IndexStateG RAGSeg) (query : String) (k : Int) :
    Except PyErr (List (ℚ × RAGSeg)) :=
  match st.emb with
  | none => .ok []
  | some emb =>
    if st.segs.isEmpty then .ok []
    else
      match embedFn [normalizeText query] with
      | .error e => .error e
      | .ok [] => .error .indexError
      | .ok (qv :: _) =>
        let qvn := normalizeRow nrm qv
        let scores := emb.map (fun row => dotQ row qvn)
        let idxs := argsortDesc scores
        .ok (takeUntilLen k
          (idxs.map (fun i => (scores.getD i 0, st.segs.getD i dummySeg))))

/-! ## Supporting lemmas about the descending sort -/

theorem sortHitsDesc_sorted {α : Type} (l : List (ℚ × α)) :
    List.Sorted scoreRel (sortHitsDesc l) :=
  List.sorted_insertionSort scoreRel l

theorem mem_sortHitsDesc {α : Type} {x : ℚ × α} {l : List (ℚ × α)} :
    x ∈ sortHitsDesc l ↔ x ∈ l :=
  List.mem_insertionSort scoreRel

theorem sortHitsDesc_perm {α : Type} (l : List (ℚ × α)) :
    (sortHitsDesc l).Perm l :=
  List.perm_insertionSort scoreRel l

/-! ## Lemmas about `search_transcript_by_timestamp` (claim C1) -/

theorem mem_searchTranscript {segs : List RAGSeg} {ts tol : ℚ} {x : ℚ × RAGSeg} :
    x ∈ searchTranscriptByTimestamp segs ts tol ↔
      x.2 ∈ segs ∧ transcriptScore ts tol x.2 = some x.1 := by
  obtain ⟨sc, seg⟩ := x
  unfold searchTranscriptByTimestamp
  rw [mem_sortHitsDesc, List.mem_filterMap]
  constructor
  · rintro ⟨a, ha, hfa⟩
    rcases hsc : transcriptScore ts tol a with _ | v <;> rw [hsc] at hfa
    · simp at hfa
    · simp only [Option.map_some'] at hfa
      obtain ⟨rfl, rfl⟩ := Prod.mk.injEq .. |>.mp (Option.some.injEq .. |>.mp hfa)
      exact ⟨ha, hsc⟩
  · rintro ⟨ha, hsc⟩
    exact ⟨seg, ha, by rw [hsc]; rfl⟩

theorem transcriptScore_of_contains {ts tol : ℚ} {seg : RAGSeg}
    (h : containsTs ts seg = true) : transcriptScore ts tol seg = some 2 := by
  unfold containsTs at h
  rcases hs : seg.metadata.start_s with _ | s <;> rw [hs] at h
  · simp at h
  · simp only [Bool.and_eq_true, decide_eq_true_eq] at h
    unfold transcriptScore
    rw [if_pos h.1, hs]
    simp [h.2]

theorem transcriptScore_of_not_contains {ts tol sc : ℚ} {seg : RAGSeg}
    (h : containsTs ts seg = false)
    (hsc : transcriptScore ts tol seg = some sc) :
    (∃ d : ℚ, 0 < d ∧ sc = 1 / (1 + d)) ∧ sc ≤ 1 := by
  unfold transcriptScore at hsc
  by_cases hm : seg.metadata.mtype = "srt"
  · rw [if_pos hm] at hsc
    rcases hs : seg.metadata.start_s with _ | s <;> rw [hs] at hsc
    · exact absurd hsc (by simp)
    · have hnc : ¬(s ≤ ts ∧ ts ≤ effectiveEnd s seg.metadata.end_s) := by
        intro hc
        rw [containsTs, hs] at h
        simp [hm, hc.1, hc.2] at h
      simp only [if_neg hnc] at hsc
      split_ifs at hsc with hlt htol htol
      · obtain rfl := Option.some_inj.mp hsc
        have hd : 0 < s - ts := by linarith
        refine ⟨⟨s - ts, hd, rfl⟩, ?_⟩
        rw [div_le_one (by linarith)]
        linarith
      · obtain rfl := Option.some_inj.mp hsc
        have hd : 0 < ts - effectiveEnd s seg.metadata.end_s := by
          push_neg at hnc hlt
          exact sub_pos.mpr (hnc hlt)
        refine ⟨⟨_, hd, rfl⟩, ?_⟩
        rw [div_le_one (by linarith)]
        linarith
  · rw [if_neg hm] at hsc; exact absurd hsc (by simp)

/-! ## Concrete fixtures used by witnesses and counterexamples -/

/-- A subtitle segment spanning `[10, 12]` seconds. -/
def cMeta1 : SegMeta :=
  { mtype := "srt", start_tc := "00:00:10,000", end_tc := "00:00:12,000",
    start_s := some 10, end_s := some 12 }

def cSeg1 : RAGSeg :=
  { seg_id := "S1", file_path := "f.srt", text := "hello", raw := "hello",
    metadata := cMeta1 }

/-- A subtitle segment spanning `[12.5, 13]` seconds (0.5s outside `cSeg1`). -/
def cMeta2 : SegMeta :=
  { mtype := "srt", start_tc := "00:00:12,500", end_tc := "00:00:13,000",
    start_s := some (25 / 2), end_s := some 13 }

def cSeg2 : RAGSeg :=
  { seg_id := "S2", file_path := "f.srt", text := "bye", raw := "bye",
    metadata := cMeta2 }

/-- An embedding provider returning `[1]` for every input string. -/
def cEmbed1 : List String → Except PyErr (List (List ℚ)) :=
  fun ts => .ok (ts.map (fun _ => [1]))

/-- A stand-in for `np.linalg.norm` in concrete runs. -/
def cNrm : List ℚ → ℚ := fun _ => 0

/-- C1: every containing subtitle segment scores the fixed constant 2 (above
1), every included non-containing one scores `1/(1+d) ≤ 1`, and in the
descending-sorted result every containing segment is ranked before every
non-containing one. -/
theorem c1_transcript_containment_ranking (segs : List RAGSeg) (ts tol : ℚ) :
    (∀ x ∈ searchTranscriptByTimestamp segs ts tol,
      (containsTs ts x.2 = true → x.1 = 2 ∧ (1 : ℚ) < x.1) ∧
      (containsTs ts x.2 = false →
        (∃ d : ℚ, 0 < d ∧ x.1 = 1 / (1 + d)) ∧ x.1 ≤ 1)) ∧
    (∀ i j (hi : i < (searchTranscriptByTimestamp segs ts tol).length)
      (hj : j < (searchTranscriptByTimestamp segs ts tol).length),
      containsTs ts ((searchTranscriptByTimestamp segs ts tol).get ⟨i, hi⟩).2 = false →
      containsTs ts ((searchTranscriptByTimestamp segs ts tol).get ⟨j, hj⟩).2 = true →
      j < i) := by
  have main : ∀ x ∈ searchTranscriptByTimestamp segs ts tol,
      (containsTs ts x.2 = true → x.1 = 2 ∧ (1 : ℚ) < x.1) ∧
      (containsTs ts x.2 = false →
        (∃ d : ℚ, 0 < d ∧ x.1 = 1 / (1 + d)) ∧ x.1 ≤ 1) := by
    intro x hx
    have hsx : transcriptScore ts tol x.2 = some x.1 := (mem_searchTranscript.mp hx).2
    constructor
    · intro hc
      have h2 := @transcriptScore_of_contains ts tol x.2 hc
      rw [h2] at hsx
      have hx1 : x.1 = 2 := (Option.some_inj.mp hsx).symm
      exact ⟨hx1, by rw [hx1]; norm_num⟩
    · intro hnc
      exact transcriptScore_of_not_contains hnc hsx
  refine ⟨main, ?_⟩
  intro i j hi hj hci hcj
  by_contra hji
  push_neg at hji
  rcases eq_or_lt_of_le hji with heq | hlt
  · have hfin : (⟨i, hi⟩ : Fin (searchTranscriptByTimestamp segs ts tol).length) = ⟨j, hj⟩ :=
      Fin.ext heq
    rw [hfin] at hci
    rw [hcj] at hci
    simp at hci
  · have hsorted : List.Sorted scoreRel (searchTranscriptByTimestamp segs ts tol) :=
      List.sorted_insertionSort scoreRel _
    have hrel := List.pairwise_iff_get.mp hsorted ⟨i, hi⟩ ⟨j, hj⟩ hlt
    have hgi := List.get_mem (searchTranscriptByTimestamp segs ts tol) i hi
    have hgj := List.get_mem (searchTranscriptByTimestamp segs ts tol) j hj
    have h2 := (main _ hgj).1 hcj
    have h1 := (main _ hgi).2 hci
    have : ((searchTranscriptByTimestamp segs ts tol).get ⟨j, hj⟩).1 ≤
           ((searchTranscriptByTimestamp segs ts tol).get ⟨i, hi⟩).1 := hrel
    linarith [h2.1, h1.2]

/-- Witness for C1 at a concrete index: segment `[10,12]` contains the query
instant 11 and outranks the non-containing segment starting at 12.5. -/
theorem c1_witness :
    ((((2 : ℚ), cSeg1) ∈ searchTranscriptByTimestamp [cSeg2, cSeg1] 11 5 ∧
       containsTs 11 cSeg1 = true) ∧
      (((2 : ℚ), cSeg1).1 = 2 ∧ (1 : ℚ) < ((2 : ℚ), cSeg1).1)) ∧
    (0 : Nat) < 1 := by
  constructor
  · refine ⟨⟨by decide, by decide⟩, ?_⟩
    exact ((c1_transcript_containment_ranking [cSeg2, cSeg1] 11 5).1
      (2, cSeg1) (by decide)).1 (by decide)
  · exact (c1_transcript_containment_ranking [cSeg2, cSeg1] 11 5).2
      1 0 (by decide) (by decide) (by decide) (by decide)

/-! ## Claim C2: fatal vs. skipped SRT blocks -/

/-- An SRT file whose first block has a present time-range line with a
garbled start timecode, followed by a well-formed block. -/
def cBadSrt : String :=
  "1\n00:00:0X,000-->00:00:02,000\nHello\n\n2\n00:00:03,000-->00:00:04,000\nWorld"

/-- The segment the RAG parser extracts from `cBadSrt`'s second block. -/
def cWorldSeg : RAGSeg :=
  { seg_id := "PFX-000002", file_path := "p", text := "World", raw := "World",
    metadata := { mtype := "srt", start_tc := "00:00:03,000", end_tc := "00:00:04,000",
                  start_s := some 3, end_s := some 4 } }

/-- C2 counterexample: on a file containing a block whose time-range line is
present but whose timecodes fail to parse, `RAGIndex._parse_srt` does NOT
raise — it skips the block and still returns the later block's segment —
while `ShowIndex._parse_srt` raises on the same file.  The claim's "causes
the whole file parse to raise" is therefore false for the RAG parser. -/
theorem c2_counterexample :
    parseSrtRag "p" cBadSrt "PFX" = [cWorldSeg] ∧
    parseSrtShow "p" cBadSrt "E1" "P1" "LO" = .error .valueError := by
  constructor
  · decide
  · decide

theorem showSrtGo_error_iff (path e p pfx : String) (bs : List String) (out : List ShowSeg) :
    (∃ er, showSrtGo path e p pfx bs out = .error er) ↔
      ∃ b ∈ bs, blockFatal b = true := by
  induction bs generalizing out with
  | nil => simp [showSrtGo]
  | cons b rest ih =>
    simp only [showSrtGo]
    rcases hsh : blockShape b with _ | ⟨tl, txts, oidx⟩
    · have hbf : blockFatal b = false := by simp [blockFatal, hsh]
      simp [ih, hbf]
    · rcases hbb : blockBody tl txts with er | oseg
      · have hbf : blockFatal b = true := by simp [blockFatal, hsh, hbb]
        simp [hbf, hbb]
      · have hbf : blockFatal b = false := by simp [blockFatal, hsh, hbb]
        rcases oseg with _ | seg
        · simp [ih, hbf, hbb]
        · simp [ih, hbf, hbb]

theorem ragFold_length (path pfx : String) (bs : List String) (out : List RAGSeg) :
    (bs.foldl (ragSrtStep path pfx) out).length =
      out.length + bs.countP (fun b => blockGood b) := by
  induction bs generalizing out with
  | nil => simp
  | cons b rest ih =>
    rw [List.foldl_cons, ih, List.countP_cons]
    have hstep : (ragSrtStep path pfx out b).length =
        out.length + (if blockGood b then 1 else 0) := by
      unfold ragSrtStep blockGood
      rcases hsh : blockShape b with _ | ⟨tl, txts, oidx⟩
      · simp
      · rcases hbb : blockBody tl txts with er | oseg
        · simp [hbb]
        · rcases oseg with _ | seg <;> simp [hbb]
    rw [hstep]
    ring

theorem malformed_not_fatal (b : String) (h : blockMalformed b = true) :
    blockFatal b = false ∧ blockGood b = false := by
  unfold blockMalformed at h
  rcases hsh : blockShape b with _ | sh
  · exact ⟨by simp [blockFatal, hsh], by simp [blockGood, hsh]⟩
  · rw [hsh] at h; simp at h

/-- C2 amended: a block with a present but unparsable time-range line makes
`ShowIndex._parse_srt` raise (and the show parser raises exactly when such a
block exists), whereas `RAGIndex._parse_srt` never raises — it skips such
blocks and keeps exactly the good blocks' segments; in both parsers a
malformed block (too few lines or no `-->` line) is neither fatal nor
productive. -/
theorem c2_amended (path content episode part pfx : String) :
    ((∃ er, parseSrtShow path content episode part pfx = .error er) ↔
      ∃ b ∈ splitBlocks content, blockFatal b = true) ∧
    (parseSrtRag path content pfx).length =
      (splitBlocks content).countP (fun b => blockGood b) ∧
    (∀ b, blockMalformed b = true → blockFatal b = false ∧ blockGood b = false) := by
  refine ⟨showSrtGo_error_iff path episode part pfx (splitBlocks content) [], ?_, ?_⟩
  · have h := ragFold_length path pfx (splitBlocks content) []
    simpa [parseSrtRag] using h
  · exact malformed_not_fatal

/-- Witness for C2's amended statement on `cBadSrt` and on a malformed
two-character block. -/
theorem c2_amended_witness :
    (∃ er, parseSrtShow "p" cBadSrt "E1" "P1" "LO" = .error er) ∧
    (blockFatal "ab" = false ∧ blockGood "ab" = false) := by
  constructor
  · exact (c2_amended "p" cBadSrt "E1" "P1" "LO").1.mpr
      ⟨"1\n00:00:0X,000-->00:00:02,000\nHello", by decide, by decide⟩
  · exact (c2_amended "p" cBadSrt "E1" "P1" "LO").2.2 "ab" (by decide)

/-! ## Claims C3/C10: cache failure semantics and write order -/

theorem rebuildIndex_ok_shape {α : Type} (textF : α → String) (fpF : List α → String)
    (embedFn : List String → Except PyErr (List (List ℚ))) (nrm : List ℚ → ℚ)
    (segs : List α) (bs : Nat) (st : IndexStateG α) (tr : List (WriteEvG α))
    (h : rebuildIndex textF fpF embedFn nrm segs bs = .ok (st, tr)) :
    st.segs = segs ∧ ∃ vecs, embedAll embedFn bs (segs.map textF) = .ok vecs ∧
      vecs ≠ [] ∧ st.emb = some (vecs.map (normalizeRow nrm)) ∧
      tr = [.metaW (fpF segs) segs.length, .embW (vecs.map (normalizeRow nrm)), .segW segs] := by
  unfold rebuildIndex at h
  rcases hEA : embedAll embedFn bs (segs.map textF) with er | vecs <;> simp only [hEA] at h
  · simp at h
  · rcases hNS : npStack vecs with er | m <;> simp only [hNS] at h
    · simp at h
    · have hv : m = vecs ∧ vecs ≠ [] := by
        unfold npStack at hNS
        split at hNS
        · exact absurd hNS (by simp)
        · split at hNS
          · refine ⟨?_, by simp⟩
            injection hNS with h2
            exact h2.symm
          · exact absurd hNS (by simp)
      obtain ⟨rfl, hne⟩ := hv
      injection h with h2
      obtain ⟨rfl, rfl⟩ := Prod.ext_iff.mp h2.symm
      exact ⟨rfl, m, rfl, hne, rfl, rfl⟩

/-- C3: when all three cache artifacts exist but reading them raises, the
exception is not propagated: `load_directory` falls through to a full
rebuild (re-embedding all segments) and completes normally. -/
theorem c3_cache_read_error_rebuilds
    (embedFn : List String → Except PyErr (List (List ℚ))) (nrm : List ℚ → ℚ)
    (arts : CacheArtsG RAGSeg) (segs : List RAGSeg) (bs : Nat)
    (st : IndexStateG RAGSeg) (tr : List (WriteEvG RAGSeg))
    (hne : segs ≠ [])
    (hfail : cacheReadAttempt arts (fingerprint segs) = .error .readError)
    (hreb : rebuildIndex (fun s => s.text) fingerprint embedFn nrm segs bs = .ok (st, tr)) :
    loadDirectory embedFn nrm (some arts) segs bs false = .ok (st, tr) ∧
    st.segs = segs ∧ ∃ M, st.emb = some M := by
  have hshape := rebuildIndex_ok_shape _ _ _ _ _ _ _ _ hreb
  refine ⟨?_, hshape.1, ?_⟩
  · unfold loadDirectory
    have hie : segs.isEmpty = false := by
      rcases segs with _ | _
      · exact absurd rfl hne
      · rfl
    rw [hie]
    simp only [Bool.false_eq_true, if_false, hfail]
    exact hreb
  · obtain ⟨_, vecs, _, _, hemb, _⟩ := hshape
    exact ⟨_, hemb⟩

/-- Witness for C3: metadata artifact unreadable, rebuild succeeds. -/
theorem c3_witness :
    ([cSeg1] ≠ ([] : List RAGSeg)) ∧
    cacheReadAttempt (⟨.err, .ok [], .ok []⟩ : CacheArtsG RAGSeg) (fingerprint [cSeg1]) =
      .error .readError ∧
    loadDirectory cEmbed1 cNrm (some ⟨.err, .ok [], .ok []⟩) [cSeg1] 64 false =
      .ok (⟨[cSeg1], some [[1000000000]]⟩,
           [.metaW (fingerprint [cSeg1]) 1, .embW [[1000000000]], .segW [cSeg1]]) := by
  refine ⟨by simp, rfl, ?_⟩
  exact (c3_cache_read_error_rebuilds cEmbed1 cNrm ⟨.err, .ok [], .ok []⟩ [cSeg1] 64
    ⟨[cSeg1], some [[1000000000]]⟩
    [.metaW (fingerprint [cSeg1]) 1, .embW [[1000000000]], .segW [cSeg1]]
    (by simp) rfl (by rfl)).1

/-- C10: whenever `load_directory` or `build_from_srt` completes successfully,
either no cache write happened (empty directory or cache hit), or the three
artifacts were written in exactly the order: fingerprint metadata first, then
the embedding matrix, then the segment dump. -/
theorem c10_cache_write_order :
    (∀ (embedFn : List String → Except PyErr (List (List ℚ))) (nrm : List ℚ → ℚ)
       (fs : Option (CacheArtsG RAGSeg)) (segs : List RAGSeg) (bs : Nat) (force : Bool)
       (st : IndexStateG RAGSeg) (tr : List (WriteEvG RAGSeg)),
      loadDirectory embedFn nrm fs segs bs force = .ok (st, tr) →
      tr = [] ∨ ∃ M, st.emb = some M ∧ st.segs = segs ∧
        tr = [.metaW (fingerprint segs) segs.length, .embW M, .segW segs]) ∧
    (∀ (embedFn : List String → Except PyErr (List (List ℚ))) (nrm : List ℚ → ℚ)
       (fs : Option (CacheArtsG ShowSeg)) (segs : List ShowSeg) (bs : Nat)
       (st : IndexStateG ShowSeg) (tr : List (WriteEvG ShowSeg)),
      buildFromSrt embedFn nrm fs segs bs = .ok (st, tr) →
      tr = [] ∨ ∃ M, st.emb = some M ∧ st.segs = segs ∧
        tr = [.metaW (fingerprintShow segs) segs.length, .embW M, .segW segs]) := by
  constructor
  · intro embedFn nrm fs segs bs force st tr hload
    unfold loadDirectory at hload
    cases hie : segs.isEmpty with
    | true =>
      simp only [hie, if_true] at hload
      injection hload with h2
      obtain ⟨rfl, rfl⟩ := Prod.ext_iff.mp h2.symm
      exact Or.inl rfl
    | false =>
      simp only [hie, Bool.false_eq_true, if_false] at hload
      have hreb : ∀ (hr : rebuildIndex (fun s => s.text) fingerprint embedFn nrm segs bs
          = .ok (st, tr)), tr = [] ∨ ∃ M, st.emb = some M ∧ st.segs = segs ∧
          tr = [.metaW (fingerprint segs) segs.length, .embW M, .segW segs] := by
        intro hr
        obtain ⟨hsegs, vecs, _, _, hemb, htr⟩ := rebuildIndex_ok_shape _ _ _ _ _ _ _ _ hr
        exact Or.inr ⟨_, hemb, hsegs, by rw [htr]⟩
      cases force with
      | true => exact hreb hload
      | false =>
        cases fs with
        | none => exact hreb hload
        | some arts =>
          rcases hCRA : cacheReadAttempt arts (fingerprint segs) with er | r <;>
            simp only [hCRA] at hload
          · exact hreb hload
          · rcases r with _ | ⟨sg, em⟩
            · exact hreb hload
            · injection hload with h2
              obtain ⟨rfl, rfl⟩ := Prod.ext_iff.mp h2.symm
              exact Or.inl rfl
  · intro embedFn nrm fs segs bs st tr hload
    unfold buildFromSrt at hload
    have hreb : ∀ (hr : rebuildIndex (fun s => s.text) fingerprintShow embedFn nrm segs bs
        = .ok (st, tr)), tr = [] ∨ ∃ M, st.emb = some M ∧ st.segs = segs ∧
        tr = [.metaW (fingerprintShow segs) segs.length, .embW M, .segW segs] := by
      intro hr
      obtain ⟨hsegs, vecs, _, _, hemb, htr⟩ := rebuildIndex_ok_shape _ _ _ _ _ _ _ _ hr
      exact Or.inr ⟨_, hemb, hsegs, by rw [htr]⟩
    cases fs with
    | none => exact hreb hload
    | some arts =>
      rcases hCRA : cacheReadAttempt arts (fingerprintShow segs) with er | r <;>
        simp only [hCRA] at hload
      · exact hreb hload
      · rcases r with _ | ⟨sg, em⟩
        · exact hreb hload
        · injection hload with h2
          obtain ⟨rfl, rfl⟩ := Prod.ext_iff.mp h2.symm
          exact Or.inl rfl

/-- Witness for C10: a concrete successful rebuild writes metadata, matrix,
segment dump, in that order. -/
theorem c10_witness :
    loadDirectory cEmbed1 cNrm none [cSeg2] 64 false =
      .ok (⟨[cSeg2], some [[1000000000]]⟩,
           [.metaW (fingerprint [cSeg2]) 1, .embW [[1000000000]], .segW [cSeg2]]) ∧
    ([] : List (WriteEvG RAGSeg)) = [] ∨
      ∃ M, (⟨[cSeg2], some [[1000000000]]⟩ : IndexStateG RAGSeg).emb = some M ∧
        (⟨[cSeg2], some [[1000000000]]⟩ : IndexStateG RAGSeg).segs = [cSeg2] ∧
        [WriteEvG.metaW (fingerprint [cSeg2]) 1, .embW [[1000000000]], .segW [cSeg2]] =
          [.metaW (fingerprint [cSeg2]) ([cSeg2] : List RAGSeg).length, .embW M, .segW [cSeg2]] := by
  right
  exact (c10_cache_write_order.1 cEmbed1 cNrm none [cSeg2] 64 false
    ⟨[cSeg2], some [[1000000000]]⟩
    [.metaW (fingerprint [cSeg2]) 1, .embW [[1000000000]], .segW [cSeg2]] (by rfl)).elim
    (fun h => by simp at h)
    (fun h => h)

/-! ## Claim C4: segment-list / embedding-matrix alignment -/

/-- The embedding-provider contract: one vector per input string. -/
def providerOk (g : List String → Except PyErr (List (List ℚ))) : Prop :=
  ∀ b vs, g b = .ok vs → vs.length = b.length

theorem chunksGo_flatten {α : Type} (b : Nat) (hb : b ≠ 0) :
    ∀ (fuel : Nat) (l : List α), l.length ≤ fuel → (chunksGo b fuel l).flatten = l := by
  intro fuel
  induction fuel with
  | zero =>
    intro l hl
    rcases l with _ | ⟨c, cs⟩
    · rfl
    · simp at hl
  | succ n ih =>
    intro l hl
    rcases l with _ | ⟨c, cs⟩
    · rfl
    · show ((c :: cs).take b :: chunksGo b n ((c :: cs).drop b)).flatten = c :: cs
      rw [List.flatten_cons, ih ((c :: cs).drop b) ?_, List.take_append_drop]
      have : (c :: cs).length ≤ n + 1 := hl
      simp only [List.length_drop]
      simp only [List.length_cons] at this
      omega

theorem pyChunks_flatten {α : Type} (b : Nat) (hb : b ≠ 0) (l : List α) :
    (pyChunks b l).flatten = l :=
  chunksGo_flatten b hb l.length l le_rfl

theorem embedBatches_ok_length (g : List String → Except PyErr (List (List ℚ)))
    (hg : providerOk g) :
    ∀ (bl : List (List String)) (vs : List (List ℚ)),
      embedBatches g bl = .ok vs → vs.length = (bl.map List.length).sum := by
  intro bl
  induction bl with
  | nil => intro vs h; injection h with h2; rw [← h2]; rfl
  | cons bt rest ih =>
    intro vs h
    unfold embedBatches at h
    rcases hgb : g bt with er | vcur <;> simp only [hgb] at h
    · exact absurd h (by simp)
    · rcases hrest : embedBatches g rest with er | vrest <;> simp only [hrest] at h
      · exact absurd h (by simp)
      · injection h with h2
        rw [← h2, List.length_append, hg bt vcur hgb, ih vrest hrest]
        simp

theorem embedAll_ok_length (g : List String → Except PyErr (List (List ℚ)))
    (hg : providerOk g) (bs : Nat) (texts : List String) (vs : List (List ℚ))
    (h : embedAll g bs texts = .ok vs) : vs.length = texts.length := by
  unfold embedAll at h
  by_cases hbs : bs = 0
  · rw [if_pos hbs] at h; exact absurd h (by simp)
  · rw [if_neg hbs] at h
    rw [embedBatches_ok_length g hg _ _ h]
    have h2 := congrArg List.length (pyChunks_flatten bs hbs texts)
    rw [List.length_flatten] at h2
    exact h2

/-- The matrix produced by a successful build over `segs`: some provider
obeying the contract was batch-applied to the segment texts, and the rows
were normalized with some norm routine. -/
def BuiltFrom (segs : List RAGSeg) (M : List (List ℚ)) : Prop :=
  ∃ g nrm bs vecs, providerOk g ∧
    embedAll g bs (segs.map (fun s => s.text)) = .ok vecs ∧ vecs ≠ [] ∧
    M = vecs.map (normalizeRow nrm)

theorem builtFrom_length {segs : List RAGSeg} {M : List (List ℚ)}
    (h : BuiltFrom segs M) : M.length = segs.length := by
  obtain ⟨g, nrm, bs, vecs, hg, hEA, _, rfl⟩ := h
  rw [List.length_map, embedAll_ok_length g hg bs _ vecs hEA, List.length_map]

/-- Cache artifacts left on disk by a prior successful build. -/
def PriorBuild (arts : CacheArtsG RAGSeg) : Prop :=
  ∃ segs0 M0, BuiltFrom segs0 M0 ∧
    arts.metaFp = .ok (some (fingerprint segs0)) ∧
    arts.segRecs = .ok segs0 ∧ arts.embMat = .ok M0

/-- C4: after every successful `load_directory` — cache hit or rebuild —
either the index is empty, or the number of matrix rows equals the number of
segments and the matrix is the (normalized, batch-ordered) embedding of the
segment texts; assuming the provider returns one vector per input and any
pre-existing artifacts came from a prior successful build. -/
theorem c4_segment_matrix_alignment
    (embedFn : List String → Except PyErr (List (List ℚ))) (nrm : List ℚ → ℚ)
    (fs : Option (CacheArtsG RAGSeg)) (segs : List RAGSeg) (bs : Nat) (force : Bool)
    (st : IndexStateG RAGSeg) (tr : List (WriteEvG RAGSeg))
    (hg : providerOk embedFn)
    (hfs : fs = none ∨ ∃ arts, fs = some arts ∧ PriorBuild arts)
    (hload : loadDirectory embedFn nrm fs segs bs force = .ok (st, tr)) :
    (st.segs = [] ∧ st.emb = none) ∨
    ∃ M, st.emb = some M ∧ M.length = st.segs.length ∧ BuiltFrom st.segs M := by
  unfold loadDirectory at hload
  cases hie : segs.isEmpty with
  | true =>
    simp only [hie, if_true] at hload
    injection hload with h2
    obtain ⟨rfl, rfl⟩ := Prod.ext_iff.mp h2.symm
    exact Or.inl ⟨rfl, rfl⟩
  | false =>
    simp only [hie, Bool.false_eq_true, if_false] at hload
    have hreb : ∀ (hr : rebuildIndex (fun s => s.text) fingerprint embedFn nrm segs bs
        = .ok (st, tr)),
        (st.segs = [] ∧ st.emb = none) ∨
        ∃ M, st.emb = some M ∧ M.length = st.segs.length ∧ BuiltFrom st.segs M := by
      intro hr
      obtain ⟨hsegs, vecs, hEA, hne, hemb, _⟩ := rebuildIndex_ok_shape _ _ _ _ _ _ _ _ hr
      have hbf : BuiltFrom st.segs (vecs.map (normalizeRow nrm)) := by
        rw [hsegs]
        exact ⟨embedFn, nrm, bs, vecs, hg, hEA, hne, rfl⟩
      exact Or.inr ⟨_, hemb, builtFrom_length hbf, hbf⟩
    cases force with
    | true => exact hreb hload
    | false =>
      cases fs with
      | none => exact hreb hload
      | some arts =>
        have hprior : PriorBuild arts := by
          rcases hfs with h | ⟨a, ha, hp⟩
          · exact absurd h (by simp)
          · obtain rfl := Option.some_inj.mp ha
            exact hp
        obtain ⟨segs0, M0, hbuilt, hmeta, hsegrecs, hembmat⟩ := hprior
        rcases hCRA : cacheReadAttempt arts (fingerprint segs) with er | r <;>
          simp only [hCRA] at hload
        · exact hreb hload
        · rcases r with _ | ⟨sg, em⟩
          · exact hreb hload
          · -- cache hit: the returned records are exactly the prior build's
            have hsgem : sg = segs0 ∧ em = M0 := by
              unfold cacheReadAttempt at hCRA
              simp only [hmeta] at hCRA
              by_cases hfp : (some (fingerprint segs0) : Option String) = some (fingerprint segs)
              · simp only [if_pos hfp, hsegrecs, hembmat] at hCRA
                injection hCRA with h2
                obtain ⟨h3, h4⟩ := Prod.ext_iff.mp (Option.some_inj.mp h2)
                exact ⟨h3.symm, h4.symm⟩
              · simp only [if_neg hfp] at hCRA
                injection hCRA with h2
                exact absurd h2.symm (by simp)
            obtain ⟨rfl, rfl⟩ := hsgem
            injection hload with h2
            obtain ⟨rfl, rfl⟩ := Prod.ext_iff.mp h2.symm
            exact Or.inr ⟨em, rfl, builtFrom_length hbuilt, hbuilt⟩

/-- Witness for C4: empty directory, no artifacts on disk. -/
theorem c4_witness :
    providerOk cEmbed1 ∧
    ((((⟨[], none⟩ : IndexStateG RAGSeg)).segs = [] ∧
       (⟨[], none⟩ : IndexStateG RAGSeg).emb = none) ∨
      ∃ M, (⟨[], none⟩ : IndexStateG RAGSeg).emb = some M ∧
        M.length = (⟨[], none⟩ : IndexStateG RAGSeg).segs.length ∧
        BuiltFrom (⟨[], none⟩ : IndexStateG RAGSeg).segs M) := by
  have hg : providerOk cEmbed1 := by
    intro b vs h
    injection h with h2
    rw [← h2, List.length_map]
  exact ⟨hg, c4_segment_matrix_alignment cEmbed1 cNrm none [] 64 false
    ⟨[], none⟩ [] hg (Or.inl rfl) rfl⟩

/-! ## Claim C5: semantic search is a sorted top-k -/

theorem takeUntilLen_eq_take {α : Type} (k : Int) (hk : 1 ≤ k) (l : List α) :
    takeUntilLen k l = l.take k.toNat := by
  induction l generalizing k with
  | nil => simp [takeUntilLen]
  | cons x xs ih =>
    unfold takeUntilLen
    by_cases h1 : (1 : Int) ≥ k
    · have hkk : k = 1 := le_antisymm h1 hk
      subst hkk
      simp
    · rw [if_neg h1, ih (k - 1) (by omega)]
      have h2 : k.toNat = (k - 1).toNat + 1 := by omega
      rw [h2, List.take_succ_cons]

theorem range_map_getD_zip (scores : List ℚ) (segs : List RAGSeg)
    (h : scores.length = segs.length) :
    (List.range scores.length).map (fun i => (scores.getD i 0, segs.getD i dummySeg)) =
      scores.zip segs := by
  induction scores generalizing segs with
  | nil => simp
  | cons a as ih =>
    rcases segs with _ | ⟨b, bs⟩
    · simp at h
    · simp only [List.length_cons, List.range_succ_eq_map, List.map_cons, List.map_map,
        List.zip_cons_cons, List.getD_cons_zero]
      congr 1
      rw [← ih bs (by simpa using h)]
      apply List.map_congr_left
      intro i _
      simp [Function.comp, List.getD_cons_succ]

theorem argsort_map_eq_sort (scores : List ℚ) (segs : List RAGSeg)
    (h : scores.length = segs.length) :
    (argsortDesc scores).map (fun i => (scores.getD i 0, segs.getD i dummySeg)) =
      List.insertionSort scoreRel (scores.zip segs) := by
  unfold argsortDesc
  rw [List.map_insertionSort (idxScoreRel scores) scoreRel
    (fun i => (scores.getD i 0, segs.getD i dummySeg)) (List.range scores.length)
    (fun a _ b _ => Iff.rfl)]
  rw [range_map_getD_zip scores segs h]

/-- C5 amended: for every `k ≥ 1`, a successful `search` returns the top-k
hits: sorted descending by score, of length `min k N`, and no omitted hit
scores above a returned one.  (As stated, over every integer `k`, the claim
fails at `k = 0`: see the counterexample.) -/
theorem c5_search_sorted_topk
    (embedFn : List String → Except PyErr (List (List ℚ))) (nrm : List ℚ → ℚ)
    (st : IndexStateG RAGSeg) (query : String) (k : Int)
    (res : List (ℚ × RAGSeg)) (emb : List (List ℚ)) (qv : List ℚ) (qrest : List (List ℚ))
    (hk : 1 ≤ k)
    (hemb : st.emb = some emb)
    (hlen : emb.length = st.segs.length)
    (hq : embedFn [normalizeText query] = .ok (qv :: qrest))
    (hres : search embedFn nrm st query k = .ok res) :
    List.Sorted scoreRel res ∧
    res.length = min k.toNat st.segs.length ∧
    ∃ rest,
      (res ++ rest).Perm
        ((emb.map (fun row => dotQ row (normalizeRow nrm qv))).zip st.segs) ∧
      ∀ x ∈ res, ∀ y ∈ rest, y.1 ≤ x.1 := by
  unfold search at hres
  rw [hemb] at hres
  simp only [] at hres
  cases hie : st.segs.isEmpty with
  | true =>
    simp only [hie, if_true] at hres
    injection hres with h2
    obtain rfl := h2.symm
    have hsegs : st.segs = [] := List.isEmpty_iff.mp hie
    refine ⟨List.sorted_nil, ?_, [], ?_, ?_⟩
    · simp [hsegs]
    · simp [hsegs]
    · intro x hx
      simp at hx
  | false =>
    simp only [hie, Bool.false_eq_true, if_false, hq] at hres
    injection hres with h2
    obtain rfl := h2.symm
    set scores := emb.map (fun row => dotQ row (normalizeRow nrm qv)) with hscores
    have hlen2 : scores.length = st.segs.length := by
      rw [hscores, List.length_map, hlen]
    rw [takeUntilLen_eq_take k hk, argsort_map_eq_sort scores st.segs hlen2]
    set sorted := List.insertionSort scoreRel (scores.zip st.segs) with hsorteddef
    have hsorted : List.Sorted scoreRel sorted := List.sorted_insertionSort scoreRel _
    have hslen : sorted.length = st.segs.length := by
      rw [hsorteddef, List.length_insertionSort, List.length_zip, hlen2, min_self]
    refine ⟨?_, ?_, sorted.drop k.toNat, ?_, ?_⟩
    · exact List.Pairwise.sublist (List.take_sublist _ _) hsorted
    · rw [List.length_take, hslen]
    · rw [List.take_append_drop]
      exact List.perm_insertionSort scoreRel _
    · intro x hx y hy
      have hps : List.Pairwise scoreRel
          (List.take k.toNat sorted ++ List.drop k.toNat sorted) := by
        rw [List.take_append_drop]
        exact hsorted
      exact (List.pairwise_append.mp hps).2.2 x hx y hy

/-- C5 counterexample: with one indexed segment, `search(query, 0)` returns
one hit, not `min 0 N = 0` of them — the append in the source's collection
loop runs before the length check. -/
theorem c5_counterexample :
    search cEmbed1 cNrm ⟨[cSeg1], some [[1]]⟩ "q" 0 = .ok [((1000000000 : ℚ), cSeg1)] ∧
    ¬ ([((1000000000 : ℚ), cSeg1)].length = min ((0 : Int)).toNat
        ([cSeg1] : List RAGSeg).length) := by
  constructor
  · decide
  · decide

/-- Witness for the amended C5 on a two-segment index with `k = 1`. -/
theorem c5_witness :
    (1 : Int) ≤ 1 ∧
    (List.Sorted scoreRel [((1000000000 : ℚ), cSeg1)] ∧
     [((1000000000 : ℚ), cSeg1)].length =
       min (1 : Int).toNat ([cSeg1, cSeg2] : List RAGSeg).length ∧
     ∃ rest,
       ([((1000000000 : ℚ), cSeg1)] ++ rest).Perm
         ((([[1], [1]] : List (List ℚ)).map
            (fun row => dotQ row (normalizeRow cNrm [1]))).zip [cSeg1, cSeg2]) ∧
       ∀ x ∈ [((1000000000 : ℚ), cSeg1)], ∀ y ∈ rest, y.1 ≤ x.1) := by
  refine ⟨le_refl 1, ?_⟩
  exact c5_search_sorted_topk cEmbed1 cNrm ⟨[cSeg1, cSeg2], some [[1], [1]]⟩ "q" 1
    [((1000000000 : ℚ), cSeg1)] [[1], [1]] [1] []
    (le_refl 1) rfl (by decide) rfl (by decide)

/-! ## Claims C6/C7: frame search window and timestamp-parse failure -/

theorem frameHit_eq_some {target tol : ℚ} {seg : RAGSeg} {x : ℚ × RAGSeg} :
    frameHit target tol seg = some x ↔
      ∃ t : ℚ, frameSeconds seg = some t ∧ |t - target| ≤ tol ∧
        x = (1 / (1 + |t - target|), seg) := by
  unfold frameHit
  rcases hfs : frameSeconds seg with _ | t
  · simp
  · simp only []
    by_cases hd : |t - target| ≤ tol
    · rw [if_pos hd]
      constructor
      · intro h
        exact ⟨t, rfl, hd, (Option.some_inj.mp h).symm⟩
      · rintro ⟨t2, ht2, hle, rfl⟩
        obtain rfl := (Option.some_inj.mp ht2).symm
        rfl
    · rw [if_neg hd]
      constructor
      · intro h
        exact absurd h (by simp)
      · rintro ⟨t2, ht2, hle, rfl⟩
        obtain rfl := (Option.some_inj.mp ht2).symm
        exact absurd hle hd

theorem mem_searchFrames {segs : List RAGSeg} {tsStr : String} {tol target : ℚ}
    {x : ℚ × RAGSeg} (hparse : parseFrameTimestamp tsStr = some target) :
    x ∈ searchFramesByTimestamp segs tsStr tol ↔
      ∃ seg ∈ segs, frameHit target tol seg = some x := by
  unfold searchFramesByTimestamp
  simp only [hparse]
  rw [mem_sortHitsDesc, List.mem_filterMap]

/-- C6: a frame-caption segment is returned exactly when its extracted
timestamp lies within `tolerance_seconds` of the target (the boundary is
included), every returned hit carries score `1/(1+distance)` in `(0, 1]`,
and the result is sorted descending. -/
theorem c6_frames_tolerance_window
    (segs : List RAGSeg) (tsStr : String) (tol target : ℚ)
    (hparse : parseFrameTimestamp tsStr = some target) :
    (∀ seg ∈ segs, ∀ t : ℚ, frameSeconds seg = some t →
      (|t - target| ≤ tol ↔
        (1 / (1 + |t - target|), seg) ∈ searchFramesByTimestamp segs tsStr tol)) ∧
    (∀ x ∈ searchFramesByTimestamp segs tsStr tol, ∃ t : ℚ,
      frameSeconds x.2 = some t ∧ |t - target| ≤ tol ∧
      x.1 = 1 / (1 + |t - target|) ∧ 0 < x.1 ∧ x.1 ≤ 1) ∧
    List.Sorted scoreRel (searchFramesByTimestamp segs tsStr tol) := by
  refine ⟨?_, ?_, ?_⟩
  · intro seg hseg t ht
    constructor
    · intro hle
      rw [mem_searchFrames hparse]
      exact ⟨seg, hseg, frameHit_eq_some.mpr ⟨t, ht, hle, rfl⟩⟩
    · intro hmem
      rw [mem_searchFrames hparse] at hmem
      obtain ⟨seg2, hseg2, hhit⟩ := hmem
      obtain ⟨t2, ht2, hle2, hx⟩ := frameHit_eq_some.mp hhit
      obtain rfl : seg = seg2 := congrArg Prod.snd hx
      rw [ht] at ht2
      obtain rfl := Option.some_inj.mp ht2
      exact hle2
  · intro x hx
    rw [mem_searchFrames hparse] at hx
    obtain ⟨seg, hseg, hhit⟩ := hx
    obtain ⟨t, ht, hle, rfl⟩ := frameHit_eq_some.mp hhit
    have habs : (0 : ℚ) ≤ |t - target| := abs_nonneg _
    refine ⟨t, ht, hle, rfl, ?_, ?_⟩
    · exact one_div_pos.mpr (by linarith)
    · rw [div_le_one (by linarith)]
      linarith
  · unfold searchFramesByTimestamp
    simp only [hparse]
    exact List.sorted_insertionSort scoreRel _

/-- A frame-caption segment at 1.5 seconds in the ingestion pipeline's wire
format. -/
def cFrameSeg : RAGSeg :=
  { seg_id := "F1", file_path := "vid/frames/captions.txt", text := "t",
    raw := "时间: 00:00:01,500 (1.5秒) 帧文件: frames/000001.jpg",
    metadata := { mtype := "txt", start_tc := "", end_tc := "",
                  start_s := none, end_s := none } }

/-- Witness for C6: the 1.5s frame is within 10s of target 1.0s, so it is
returned with score `1/(1+0.5)`. -/
theorem c6_witness :
    parseFrameTimestamp "00:00:01,000" = some 1 ∧
    cFrameSeg ∈ ([cFrameSeg] : List RAGSeg) ∧
    frameSeconds cFrameSeg = some (3 / 2) ∧
    (|(3 / 2 : ℚ) - 1| ≤ 10) ∧
    (1 / (1 + |(3 / 2 : ℚ) - 1|), cFrameSeg) ∈
      searchFramesByTimestamp [cFrameSeg] "00:00:01,000" 10 := by
  refine ⟨by decide, by decide, by decide, by decide, ?_⟩
  exact ((c6_frames_tolerance_window [cFrameSeg] "00:00:01,000" 10 1 (by decide)).1
    cFrameSeg (by decide) (3 / 2) (by decide)).mp (by decide)

/-- C7: a timestamp string that fails the strict format and the fallback
format makes `search_frames_by_timestamp` return `[]` without raising. -/
theorem c7_bad_timestamp_empty
    (segs : List RAGSeg) (s : String) (tol : ℚ)
    (h1 : tcToSeconds s = none)
    (h2 : tcToSeconds (frameFallback s) = none) :
    searchFramesByTimestamp segs s tol = [] := by
  unfold searchFramesByTimestamp parseFrameTimestamp
  simp only [h1, h2]

/-- Witness for C7 on the unparsable timestamp string `"abc"`. -/
theorem c7_witness :
    tcToSeconds "abc" = none ∧
    tcToSeconds (frameFallback "abc") = none ∧
    searchFramesByTimestamp [cFrameSeg] "abc" 10 = [] :=
  ⟨by decide, by decide,
   c7_bad_timestamp_empty [cFrameSeg] "abc" 10 (by decide) (by decide)⟩

/-! ## Claims C8/C9: empty corpus behaviour and fingerprint determinism -/

/-- C8: a directory walk yielding zero parsable segments loads into an empty
index (empty segment list, no matrix, no cache writes) without error, and
every subsequent `search` against that state returns `[]` without raising,
for any provider, norm routine, query and `k`. -/
theorem c8_empty_corpus
    (embedFn : List String → Except PyErr (List (List ℚ))) (nrm : List ℚ → ℚ)
    (fs : Option (CacheArtsG RAGSeg)) (bs : Nat) (force : Bool)
    (embedFn2 : List String → Except PyErr (List (List ℚ))) (nrm2 : List ℚ → ℚ)
    (query : String) (k : Int) :
    loadDirectory embedFn nrm fs [] bs force = .ok (⟨[], none⟩, []) ∧
    search embedFn2 nrm2 ⟨[], none⟩ query k = .ok [] := by
  exact ⟨rfl, rfl⟩

/-- C9: the fingerprint is a function of exactly the ordered `(seg_id, raw)`
sequence — two segment lists with equal such sequences hash identically, in
both `RAGIndex._fingerprint` and `ShowIndex._fingerprint` (independent of
texts, paths, metadata, or any embedding backend, none of which are hashed). -/
theorem c9_fingerprint_of_id_raw
    (s1 s2 : List RAGSeg) (t1 t2 : List ShowSeg)
    (hs : s1.map (fun s => (s.seg_id, s.raw)) = s2.map (fun s => (s.seg_id, s.raw)))
    (ht : t1.map (fun s => (s.seg_id, s.raw)) = t2.map (fun s => (s.seg_id, s.raw))) :
    fingerprint s1 = fingerprint s2 ∧ fingerprintShow t1 = fingerprintShow t2 := by
  constructor
  · unfold fingerprint
    rw [hs]
  · unfold fingerprintShow
    rw [ht]

/-- A copy of `cSeg1` with different text, path and metadata but the same
`(seg_id, raw)` pair. -/
def cSeg1Alt : RAGSeg :=
  { seg_id := "S1", file_path := "other/location.txt", text := "HELLO", raw := "hello",
    metadata := { mtype := "txt", start_tc := "", end_tc := "",
                  start_s := none, end_s := none } }

/-- Witness for C9: the fingerprints of `[cSeg1]` and `[cSeg1Alt]` coincide
although every field except `seg_id` and `raw` differs. -/
theorem c9_witness :
    ([cSeg1].map (fun s => (s.seg_id, s.raw)) =
      [cSeg1Alt].map (fun s => (s.seg_id, s.raw))) ∧
    fingerprint [cSeg1] = fingerprint [cSeg1Alt] :=
  ⟨by decide,
   (c9_fingerprint_of_id_raw [cSeg1] [cSeg1Alt] [] [] (by decide) rfl).1⟩
